import Mathlib

/-!
Shallow embedding of the verification-pack generator (`src/run.py`).

The repository retrieves line-level candidates for each claim with BM25,
classifies each candidate with lexical rules (`ClaimVerifier._check_support`),
stops at the first decisive candidate (`ClaimVerifier.verify_claim`), and
assembles one pack per question (`PackGenerator.generate_pack`).

Modelling conventions:
* texts are ASCII `String`s, processed as `List Char`;
* Python floats become `ℚ` (BM25 scores only feed comparisons against small
  rational thresholds, and overlap ratios are quotients of small naturals, so
  the rational comparisons agree with the float ones);
* `rank_bm25.BM25Okapi.get_scores` is a third-party library call, not code of
  this repository; it is abstracted as the `getScores` field of `Retriever`,
  and everything downstream of the raw score list is modelled from the source;
* regular expressions are unfolded into explicit scanning functions that
  follow the leftmost-match, greedy-with-forced-backtracking behaviour of the
  concrete patterns in the source.
-/

namespace VPack

/-- Python `\w` on the ASCII texts handled here: alphanumeric or underscore. -/
def isWordChar (c : Char) : Bool := c.isAlphanum || c = '_'

/-- Python `\s` (ASCII range). -/
def isSpaceChar (c : Char) : Bool :=
  c = ' ' || c = '\t' || c = '\n' || c = '\r' || c = '\x0b' || c = '\x0c'

/-- Python `\d` (ASCII range). -/
def isDigitChar (c : Char) : Bool := '0' ≤ c && c ≤ '9'

/-- Python `str.lower()` on the ASCII texts handled here. -/
def toLowerL (s : List Char) : List Char := s.map Char.toLower

/-- `re.findall(r'\w+', text)`: maximal runs of word characters.  The fuel is
the length of the remaining text, which each step strictly decreases. -/
def tokenizeAux : Nat → List Char → List (List Char)
  | 0, _ => []
  | _, [] => []
  | fuel + 1, c :: rest =>
    if isWordChar c then
      ((c :: rest).takeWhile isWordChar) :: tokenizeAux fuel ((c :: rest).dropWhile isWordChar)
    else
      tokenizeAux fuel rest

/-- `re.findall(r'\w+', text)` (`BM25Retriever._tokenize` without the
lowering, which call sites apply exactly where the source does). -/
def tokenize (s : List Char) : List (List Char) := tokenizeAux s.length s

/-- Python substring test `needle in haystack`. -/
def containsSub (hay needle : List Char) : Bool :=
  hay.tails.any (fun t => needle.isPrefixOf t)

/-- `ClaimVerifier.NEGATION_WORDS`. -/
def NEGATION_WORDS : List (List Char) :=
  ["not".toList, "never".toList, "no".toList, "cannot".toList, "prohibited".toList,
   "must not".toList, "should not".toList]

/-- `any(neg in text_lower for neg in NEGATION_WORDS)`: plain substring
containment of a negation word in the lowercased text. -/
def negated (text : String) : Bool :=
  NEGATION_WORDS.any (fun w => containsSub (toLowerL text.toList) w)

/-- An end-of-match `\b`: the next character is absent or not a word
character (every pattern below ends in a word character). -/
def boundaryAfter : List Char → Bool
  | [] => true
  | c :: _ => !isWordChar c

/-- Presence test for `re.search` of a literal pattern that begins and ends
with a word character and is anchored by `\b` on both sides.  `prevW` records
whether the character before the current position is a word character. -/
def containsWordBoundedAux (pat : List Char) : List Char → Bool → Bool
  | [], _ => false
  | c :: rest, prevW =>
    (!prevW && pat.isPrefixOf (c :: rest) && boundaryAfter ((c :: rest).drop pat.length))
      || containsWordBoundedAux pat rest (isWordChar c)

/-- `re.search(r'\b<pat>\b', hay) is not None` for a literal `pat`. -/
def containsWordBounded (hay pat : List Char) : Bool := containsWordBoundedAux pat hay false

/-- The `prohibitive_patterns` list of `ClaimVerifier._check_support`. -/
def PROHIBITIVE_PATTERNS : List (List Char) :=
  ["do not".toList, "must not".toList, "should not".toList,
   "prohibited".toList, "never".toList, "cannot".toList]

/-- `evidence_prohibits`: some prohibitive pattern matches the lowercased
evidence at word/phrase boundaries. -/
def evidenceProhibits (evidence : String) : Bool :=
  PROHIBITIVE_PATTERNS.any (fun p => containsWordBounded (toLowerL evidence.toList) p)

/-- Tail of `\b(\d+)\s*(?:working\s+)?days?\b` after the captured digits:
consume `\s*`, optionally `working\s+` (tried first, as the regex engine
does), then `day`/`days` with a trailing `\b`; return the remainder of the
text after the match.  Greedy sub-matches are maximal runs; the only
backtracking the pattern can need is dropping the optional `working` group
and the optional `s`, both tried here. -/
def dayTail (rest : List Char) : Option (List Char) :=
  let afterWs := rest.dropWhile isSpaceChar
  let tryDays : List Char → Option (List Char) := fun r =>
    if ("days".toList).isPrefixOf r && boundaryAfter (r.drop 4) then some (r.drop 4)
    else if ("day".toList).isPrefixOf r && boundaryAfter (r.drop 3) then some (r.drop 3)
    else none
  let viaWorking : Option (List Char) :=
    if ("working".toList).isPrefixOf afterWs then
      let r2 := afterWs.drop 7
      if (r2.takeWhile isSpaceChar).isEmpty then none
      else tryDays (r2.dropWhile isSpaceChar)
    else none
  match viaWorking with
  | some r => some r
  | none => tryDays afterWs

/-- `re.findall(r'\b(\d+)\s*(?:working\s+)?days?\b', text)`: left-to-right,
non-overlapping scan collecting the captured digit groups (as strings —
the source compares them with `!=` on strings).  `prevW` records whether the
previous character is a word character, realising the leading `\b`. -/
def findDayNumbersAux : Nat → List Char → Bool → List (List Char)
  | 0, _, _ => []
  | _, [], _ => []
  | fuel + 1, c :: rest, prevW =>
    if isDigitChar c && !prevW then
      let digits := (c :: rest).takeWhile isDigitChar
      match dayTail ((c :: rest).drop digits.length) with
      | some rem => digits :: findDayNumbersAux fuel rem true
      | none => findDayNumbersAux fuel rest (isWordChar c)
    else
      findDayNumbersAux fuel rest (isWordChar c)

/-- The extracted day-count strings of a text (applied to lowercased text in
`_check_support`; digits are unaffected by lowering). -/
def dayNumbers (text : String) : List (List Char) :=
  findDayNumbersAux text.toList.length (toLowerL text.toList) false

/-- Distinct term set of a text: `set(re.findall(r'\w+', text.lower()))`,
modelled as a deduplicated token list (only cardinality and membership are
used downstream, so the representative order is irrelevant). -/
def termSet (text : String) : List (List Char) := (tokenize (toLowerL text.toList)).dedup

/-- `overlap_ratio = len(claim_terms & evidence_terms) / len(claim_terms)`,
`0` when the claim has no terms.  The float quotient is modelled as the exact
rational `mkRat`; for the small integer operands arising here the comparisons
against the thresholds agree with the float ones. -/
def overlapRatio (claim evidence : String) : ℚ :=
  let claimTerms := termSet claim
  let overlap := claimTerms.filter (fun t => decide (t ∈ termSet evidence))
  if claimTerms.length = 0 then 0 else mkRat overlap.length claimTerms.length

/-- The literal `0.3` of rule (b). -/
def RULE_B_MIN_OVERLAP : ℚ := mkRat 3 10

/-- The literal `0.4` of rule (d). -/
def RULE_D_MIN_OVERLAP : ℚ := mkRat 4 10

/-- Rule (b) of `_check_support`: prohibition in the evidence, affirmative
claim, overlap at least `0.3`. -/
def ruleBFires (claim evidence : String) : Bool :=
  evidenceProhibits evidence && !negated claim
    && decide (RULE_B_MIN_OVERLAP ≤ overlapRatio claim evidence)

/-- Rule (c) of `_check_support`: both sides extract at least one day-count
and the first extracted numbers differ (as strings). -/
def ruleCFires (claim evidence : String) : Bool :=
  !(dayNumbers claim).isEmpty && !(dayNumbers evidence).isEmpty
    && decide ((dayNumbers claim).head? ≠ (dayNumbers evidence).head?)

/-- Leftmost `re.search` driver: try a match at every position from the left,
returning the first matched span. -/
def searchAux (matchAt : List Char → Option (List Char)) : Nat → List Char → Option (List Char)
  | 0, _ => none
  | fuel + 1, text =>
    match matchAt text with
    | some s => some s
    | none =>
      match text with
      | [] => none
      | _ :: rest => searchAux matchAt fuel rest

/-- `re.search` of a literal pattern: the matched span is the pattern
itself whenever it occurs as a substring. -/
def searchLiteral (text pat : List Char) : Option (List Char) :=
  if containsSub text pat then some pat else none

/-- Anchored match of `<word>\s+be` at the head of `text` (used for the
`can\s+be` / `cannot\s+be` contradiction pair); returns the matched span. -/
def wordBeAt (word : List Char) (text : List Char) : Option (List Char) :=
  if word.isPrefixOf text then
    let r1 := text.drop word.length
    let ws := r1.takeWhile isSpaceChar
    if ws.isEmpty then none
    else if ("be".toList).isPrefixOf (r1.dropWhile isSpaceChar) then
      some (word ++ ws ++ "be".toList)
    else none
  else none

/-- Anchored match of `must\s+be\s+submitted.*?(\d+)` at the head of `text`;
`.*?` is lazy (first digit reachable without crossing a newline) and `\d+` is
greedy; returns the matched span (`group(0)`). -/
def mustBeSubmittedAt (text : List Char) : Option (List Char) :=
  if ("must".toList).isPrefixOf text then
    let r1 := text.drop 4
    let ws1 := r1.takeWhile isSpaceChar
    if ws1.isEmpty then none
    else
      let r2 := r1.dropWhile isSpaceChar
      if ("be".toList).isPrefixOf r2 then
        let r3 := r2.drop 2
        let ws2 := r3.takeWhile isSpaceChar
        if ws2.isEmpty then none
        else
          let r4 := r3.dropWhile isSpaceChar
          if ("submitted".toList).isPrefixOf r4 then
            let r5 := r4.drop 9
            let mid := r5.takeWhile (fun c => !isDigitChar c && c ≠ '\n')
            let r6 := r5.drop mid.length
            if (r6.takeWhile isDigitChar).isEmpty then none
            else
              some ("must".toList ++ ws1 ++ "be".toList ++ ws2 ++ "submitted".toList
                ++ mid ++ r6.takeWhile isDigitChar)
          else none
      else none
  else none

/-- `ClaimVerifier._is_contradiction`: the fixed table of
(claim-pattern, evidence-pattern) pairs; a contradiction when both patterns
match and the matched spans (`group()`) differ. -/
def isContradiction (claimLower evidenceLower : List Char) : Bool :=
  let pairs : List (Option (List Char) × Option (List Char)) :=
    [ (searchAux mustBeSubmittedAt (claimLower.length + 1) claimLower,
       searchAux mustBeSubmittedAt (evidenceLower.length + 1) evidenceLower),
      (searchLiteral claimLower "allowed".toList,
       searchLiteral evidenceLower "prohibited".toList),
      (searchLiteral claimLower "required".toList,
       searchLiteral evidenceLower "not required".toList),
      (searchAux (wordBeAt "can".toList) (claimLower.length + 1) claimLower,
       searchAux (wordBeAt "cannot".toList) (evidenceLower.length + 1) evidenceLower) ]
  pairs.any fun p =>
    match p with
    | (some a, some b) => decide (a ≠ b)
    | _ => false

/-- `ClaimVerifier._check_support`: the fixed-priority rule chain. -/
def check_support (claim evidence : String) : String :=
  if ruleBFires claim evidence then "NOT_SUPPORTED"
  else if ruleCFires claim evidence then "NOT_SUPPORTED"
  else if RULE_D_MIN_OVERLAP ≤ overlapRatio claim evidence then
    if negated claim != negated evidence then "NOT_SUPPORTED" else "SUPPORTED"
  else if isContradiction (toLowerL claim.toList) (toLowerL evidence.toList) then "NOT_SUPPORTED"
  else "INSUFFICIENT"

/-- A classification that stops the candidate scan. -/
def isDecisive (s : String) : Bool := s == "SUPPORTED" || s == "NOT_SUPPORTED"

structure DocumentLine where
  doc_id : String
  line_num : String
  content : String
deriving DecidableEq, Repr

/-- The `location` property of `DocumentLine`. -/
def DocumentLine.location (l : DocumentLine) : String := l.line_num

structure Evidence where
  doc_id : String
  location : String
  snippet : String
deriving DecidableEq, Repr

structure ClaimResult where
  claim : String
  label : String
  evidence : List Evidence
deriving DecidableEq, Repr

structure RetrievalCandidate where
  doc_id : String
  score : ℚ
  location : String
deriving DecidableEq, Repr

/-- `BM25Retriever`: the corpus lines plus the score function.  `getScores`
stands for the external `rank_bm25.BM25Okapi.get_scores` call (third-party
code, not part of this repository); theorems quantify over it, so they hold
for every corpus and every scoring. -/
structure Retriever where
  lines : List DocumentLine
  getScores : List (List Char) → List ℚ

/-- Ordering realising Python's stable
`sorted(enumerate(scores), key=score, reverse=True)`: a stable descending
sort keyed on the score of index-tagged entries is exactly the sort by
(score descending, original index ascending), a total antisymmetric order
under which the sorted list is unique — so any sorting algorithm computes
it, and a structural insertion sort is used below. -/
def rankLE (a b : Nat × ℚ) : Prop := b.2 < a.2 ∨ (a.2 = b.2 ∧ a.1 ≤ b.1)

instance rankLE.decidableRel : DecidableRel rankLE := fun a b =>
  inferInstanceAs (Decidable (b.2 < a.2 ∨ (a.2 = b.2 ∧ a.1 ≤ b.1)))

instance rankLE.isTotal : IsTotal (Nat × ℚ) rankLE where
  total a b := by
    unfold rankLE
    rcases lt_trichotomy a.2 b.2 with h | h | h
    · exact Or.inr (Or.inl h)
    · rcases Nat.le_total a.1 b.1 with h' | h'
      · exact Or.inl (Or.inr ⟨h, h'⟩)
      · exact Or.inr (Or.inr ⟨h.symm, h'⟩)
    · exact Or.inl (Or.inl h)

instance rankLE.isTrans : IsTrans (Nat × ℚ) rankLE where
  trans a b c hab hbc := by
    unfold rankLE at *
    rcases hab with h1 | ⟨h1, h1'⟩ <;> rcases hbc with h2 | ⟨h2, h2'⟩
    · exact Or.inl (h2.trans h1)
    · exact Or.inl (h2 ▸ h1)
    · exact Or.inl (h1 ▸ h2)
    · exact Or.inr ⟨h1.trans h2, h1'.trans h2'⟩

/-- The sorted, truncated index/score list of `BM25Retriever.search`. -/
def rankCandidates (scores : List ℚ) (topK : Nat) : List (Nat × ℚ) :=
  (scores.enum.insertionSort rankLE).take topK

/-- `BM25Retriever.search`: tokenize the query, score, sort stably by score
descending, truncate to `top_k`, keep strictly positive scores only. -/
def Retriever.search (r : Retriever) (query : String) (topK : Nat) :
    List (DocumentLine × ℚ) :=
  (rankCandidates (r.getScores (tokenize (toLowerL query.toList))) topK).filterMap fun p =>
    if 0 < p.2 then (r.lines[p.1]?).map (fun l => (l, p.2)) else none

/-- `ClaimVerifier.SUPPORT_THRESHOLD` (the `MIN_SCORE` floor of the spec). -/
def SUPPORT_THRESHOLD : ℚ := 3

/-- Python `round(score, 2)`: rounding to the nearest hundredth, modelled
exactly on `ℚ`.  With `y = q * 100` represented as `y.num / y.den`, the
nearest integer `⌊y + 1/2⌋` is `(2 * y.num + y.den).fdiv (2 * y.den)`; ties
round up here, while Python rounds ties to even — the two differ only at
exact half-cent ties, which the float scores modelled here do not produce. -/
def round2 (q : ℚ) : ℚ :=
  let y : ℚ := mkRat (q.num * 100) q.den
  mkRat ((2 * y.num + (y.den : ℤ)).fdiv (2 * (y.den : ℤ))) 100

/-- The `Evidence` built from a decisive candidate line. -/
def mkEvidence (l : DocumentLine) : Evidence := ⟨l.doc_id, l.location, l.content⟩

/-- The candidate loop of `ClaimVerifier.verify_claim`: skip candidates below
the floor, classify the rest in rank order, and stop at the first decisive
one, returning the label and the evidence list. -/
def scanCandidates (claim : String) : List (DocumentLine × ℚ) → String × List Evidence
  | [] => ("INSUFFICIENT", [])
  | (line, score) :: rest =>
    if score < SUPPORT_THRESHOLD then scanCandidates claim rest
    else
      if check_support claim line.content = "SUPPORTED" then
        ("SUPPORTED", [mkEvidence line])
      else if check_support claim line.content = "NOT_SUPPORTED" then
        ("NOT_SUPPORTED", [mkEvidence line])
      else scanCandidates claim rest

/-- `ClaimVerifier.verify_claim`: search with the combined query, log every
hit (score rounded to two decimals), scan for a decisive candidate. -/
def verifyClaim (r : Retriever) (claim question : String) :
    ClaimResult × List RetrievalCandidate :=
  let candidates := r.search (question ++ " " ++ claim) 10
  let retrievalCandidates := candidates.map fun p =>
    RetrievalCandidate.mk p.1.doc_id (round2 p.2) p.1.location
  let scanned := scanCandidates claim candidates
  (ClaimResult.mk claim scanned.1 scanned.2, retrievalCandidates)

/-- The dedup identity key `(doc_id, location)`. -/
def candidateKey (c : RetrievalCandidate) : String × String := (c.doc_id, c.location)

/-- The seen-set dedup loop of `PackGenerator.generate_pack`: keep the first
occurrence of each key. -/
def dedupByKey : List RetrievalCandidate → List (String × String) → List RetrievalCandidate
  | [], _ => []
  | c :: rest, seen =>
    if candidateKey c ∈ seen then dedupByKey rest seen
    else c :: dedupByKey rest (candidateKey c :: seen)

/-- Ordering realising Python's stable `sorted(..., key=score, reverse=True)`
on the pooled candidates; the insertion sort used below is stable, like
Python's sort: of two equal-score candidates the earlier one stays first. -/
def scoreLE (a b : RetrievalCandidate) : Prop := b.score ≤ a.score

instance scoreLE.decidableRel : DecidableRel scoreLE := fun a b =>
  inferInstanceAs (Decidable (b.score ≤ a.score))

instance scoreLE.isTotal : IsTotal RetrievalCandidate scoreLE where
  total a b := le_total b.score a.score

instance scoreLE.isTrans : IsTrans RetrievalCandidate scoreLE where
  trans _ _ _ hab hbc := hbc.trans hab

/-- The sentinel answer used when no claim is SUPPORTED. -/
def INSUFFICIENT_ANSWER : String := "Insufficient evidence to provide a definitive answer."

structure Pack where
  qid : String
  answer : String
  claims : List ClaimResult
  top_k : Nat
  candidates : List RetrievalCandidate
deriving DecidableEq, Repr

/-- `PackGenerator.generate_pack`: verify every claim, build the answer from
the SUPPORTED claims, pool / sort / dedup / truncate the retrieval log. -/
def generatePack (r : Retriever) (qid question : String) (claims : List String) : Pack :=
  let claimResults := claims.map fun c => (verifyClaim r c question).1
  let allCandidates := (claims.map fun c => (verifyClaim r c question).2).flatten
  let supported := claimResults.filter fun cr => cr.label == "SUPPORTED"
  let answer :=
    if supported.isEmpty then INSUFFICIENT_ANSWER
    else String.intercalate "; " (supported.map ClaimResult.claim)
  let uniqueCandidates := dedupByKey (allCandidates.insertionSort scoreLE) []
  Pack.mk qid answer claimResults 10 (uniqueCandidates.take 10)

/-- A small concrete corpus for the witness theorems. -/
def witnessLines : List DocumentLine :=
  [⟨"doc01", "L001", "Appeals must be filed within 3 days"⟩,
   ⟨"doc01", "L002", "Appeals must be filed within 7 days"⟩,
   ⟨"doc02", "L001", "Refunds are processed in 14 days"⟩]

/-- A concrete scoring function standing in for BM25 in the witness
theorems; the last line's score varies with the query token count, so
different claims retrieve the same line with different scores. -/
def witnessScores (toks : List (List Char)) : List ℚ :=
  [5, 4, mkRat toks.length 1]

/-- The concrete retriever used by the witness theorems. -/
def witnessRetriever : Retriever := ⟨witnessLines, witnessScores⟩

/-! ## Theorems -/

/-- C2: once rules (b) and (c) have passed, an overlap ratio of at least
`0.4` classifies by polarity: NOT_SUPPORTED on a negation mismatch between
claim and evidence (plain negation-word containment), SUPPORTED otherwise. -/
theorem c2_high_overlap_rule (claim evidence : String)
    (hb : ruleBFires claim evidence = false) (hc : ruleCFires claim evidence = false)
    (hr : RULE_D_MIN_OVERLAP ≤ overlapRatio claim evidence) :
    check_support claim evidence =
      if negated claim != negated evidence then "NOT_SUPPORTED" else "SUPPORTED" := by
  simp [check_support, hb, hc, hr]

theorem c2_witness :
    ruleBFires "Refunds are processed in 14 days" "Refunds are processed in 14 days" = false ∧
    ruleCFires "Refunds are processed in 14 days" "Refunds are processed in 14 days" = false ∧
    RULE_D_MIN_OVERLAP ≤
      overlapRatio "Refunds are processed in 14 days" "Refunds are processed in 14 days" ∧
    check_support "Refunds are processed in 14 days" "Refunds are processed in 14 days"
      = "SUPPORTED" := by
  refine ⟨by decide, by decide, by decide, ?_⟩
  have h := c2_high_overlap_rule "Refunds are processed in 14 days"
    "Refunds are processed in 14 days" (by decide) (by decide) (by decide)
  simpa using h

/-- C3: a word-bounded prohibitive pattern in the evidence, an affirmative
claim, and an overlap ratio of at least `0.3` yield NOT_SUPPORTED (rule (b),
checked first); witnessed by the "Employees may cite prior decisions"
example. -/
theorem c3_prohibition_override (claim evidence : String)
    (hp : evidenceProhibits evidence = true) (hn : negated claim = false)
    (hr : RULE_B_MIN_OVERLAP ≤ overlapRatio claim evidence) :
    check_support claim evidence = "NOT_SUPPORTED" := by
  have hb : ruleBFires claim evidence = true := by simp [ruleBFires, hp, hn, hr]
  simp [check_support, hb]

theorem c3_witness :
    evidenceProhibits "Employees must not cite prior decisions in filings" = true ∧
    negated "Employees may cite prior decisions" = false ∧
    RULE_B_MIN_OVERLAP ≤ overlapRatio "Employees may cite prior decisions"
      "Employees must not cite prior decisions in filings" ∧
    check_support "Employees may cite prior decisions"
      "Employees must not cite prior decisions in filings" = "NOT_SUPPORTED" :=
  ⟨by decide, by decide, by decide,
   c3_prohibition_override "Employees may cite prior decisions"
     "Employees must not cite prior decisions in filings" (by decide) (by decide) (by decide)⟩

/-- C4: past rule (b), differing first day-counts on both sides yield
NOT_SUPPORTED regardless of overlap, and identical first day-counts can never
fire rule (c); witnessed by the 7-days-vs-3-days example. -/
theorem c4_numeric_mismatch (claim evidence : String) :
    (ruleBFires claim evidence = false → ruleCFires claim evidence = true →
      check_support claim evidence = "NOT_SUPPORTED") ∧
    ((dayNumbers claim).head? = (dayNumbers evidence).head? →
      ruleCFires claim evidence = false) := by
  constructor
  · intro hb hc
    simp [check_support, hb, hc]
  · intro h
    simp [ruleCFires, h]

theorem c4_witness :
    ruleBFires "Appeals must be filed within 7 days" "Appeals must be filed within 3 days"
      = false ∧
    RULE_D_MIN_OVERLAP ≤ overlapRatio "Appeals must be filed within 7 days"
      "Appeals must be filed within 3 days" ∧
    ruleCFires "Appeals must be filed within 7 days" "Appeals must be filed within 3 days"
      = true ∧
    check_support "Appeals must be filed within 7 days" "Appeals must be filed within 3 days"
      = "NOT_SUPPORTED" :=
  ⟨by decide, by decide, by decide,
   (c4_numeric_mismatch "Appeals must be filed within 7 days"
     "Appeals must be filed within 3 days").1 (by decide) (by decide)⟩

/-- C10: negation detection is plain substring containment of a negation
word in the lowercased text, not word-boundary matching.  The claim
"Innovation is valued" counts as negated purely because "no" occurs inside
"innovation" (no negation word matches at word boundaries); this suppresses
rule (b) against the prohibitive evidence "Innovation is never valued"
(yielding SUPPORTED) and flips rule (d) to NOT_SUPPORTED against the
non-negated evidence "Staff agree that being valued is important". -/
theorem c10_substring_negation :
    (∀ text : String, negated text = true ↔
      ∃ w ∈ NEGATION_WORDS, containsSub (toLowerL text.toList) w = true) ∧
    negated "Innovation is valued" = true ∧
    (∀ w ∈ NEGATION_WORDS,
      containsWordBounded (toLowerL "Innovation is valued".toList) w = false) ∧
    check_support "Innovation is valued" "Innovation is never valued" = "SUPPORTED" ∧
    check_support "Innovation is valued" "Staff agree that being valued is important"
      = "NOT_SUPPORTED" := by
  refine ⟨?_, by decide, by decide, by decide, by decide⟩
  intro text
  simp [negated, List.any_eq_true]

/-- Characterisation of the candidate loop of `verify_claim`: either no
candidate at or above the floor classifies decisively and the scan returns
INSUFFICIENT with no evidence, or the list splits around a first decisive
at-or-above-floor candidate whose classification and evidence are returned. -/
lemma scanCandidates_spec (claim : String) (cands : List (DocumentLine × ℚ)) :
    (scanCandidates claim cands = ("INSUFFICIENT", []) ∧
      ∀ p ∈ cands, SUPPORT_THRESHOLD ≤ p.2 →
        isDecisive (check_support claim p.1.content) = false) ∨
    (∃ pre c post, cands = pre ++ c :: post ∧
      (∀ p ∈ pre, p.2 < SUPPORT_THRESHOLD ∨
        isDecisive (check_support claim p.1.content) = false) ∧
      SUPPORT_THRESHOLD ≤ c.2 ∧ isDecisive (check_support claim c.1.content) = true ∧
      scanCandidates claim cands = (check_support claim c.1.content, [mkEvidence c.1])) := by
  induction cands with
  | nil =>
    left
    exact ⟨rfl, by simp⟩
  | cons hd tl ih =>
    obtain ⟨line, score⟩ := hd
    by_cases hs : score < SUPPORT_THRESHOLD
    · have hstep : scanCandidates claim ((line, score) :: tl) = scanCandidates claim tl := by
        simp [scanCandidates, hs]
      rcases ih with ⟨h1, h2⟩ | ⟨pre, c, post, heq, hpre, hc1, hc2, hres⟩
      · left
        refine ⟨hstep.trans h1, ?_⟩
        intro p hp hscore
        rcases List.mem_cons.mp hp with rfl | hp'
        · exact absurd hscore (not_le.mpr hs)
        · exact h2 p hp' hscore
      · right
        refine ⟨(line, score) :: pre, c, post, by simp [heq], ?_, hc1, hc2, hstep.trans hres⟩
        intro p hp
        rcases List.mem_cons.mp hp with rfl | hp'
        · exact Or.inl hs
        · exact hpre p hp'
    · by_cases hdec : isDecisive (check_support claim line.content) = true
      · right
        refine ⟨[], (line, score), tl, by simp, by simp, not_lt.mp hs, hdec, ?_⟩
        have := hdec
        simp only [isDecisive, Bool.or_eq_true, beq_iff_eq] at this
        rcases this with h | h
        · simp [scanCandidates, hs, h]
        · by_cases h' : check_support claim line.content = "SUPPORTED"
          · simp [scanCandidates, hs, h']
          · simp [scanCandidates, hs, h', h]
      · have hfalse : isDecisive (check_support claim line.content) = false :=
          Bool.not_eq_true _ ▸ (Bool.eq_false_iff.mpr (fun h => hdec h))
        have hns : ¬ check_support claim line.content = "SUPPORTED" := by
          intro h
          simp [isDecisive, h] at hfalse
        have hnn : ¬ check_support claim line.content = "NOT_SUPPORTED" := by
          intro h
          simp [isDecisive, h] at hfalse
        have hstep : scanCandidates claim ((line, score) :: tl) = scanCandidates claim tl := by
          simp [scanCandidates, hs, hns, hnn]
        rcases ih with ⟨h1, h2⟩ | ⟨pre, c, post, heq, hpre, hc1, hc2, hres⟩
        · left
          refine ⟨hstep.trans h1, ?_⟩
          intro p hp hscore
          rcases List.mem_cons.mp hp with rfl | hp'
          · exact hfalse
          · exact h2 p hp' hscore
        · right
          refine ⟨(line, score) :: pre, c, post, by simp [heq], ?_, hc1, hc2, hstep.trans hres⟩
          intro p hp
          rcases List.mem_cons.mp hp with rfl | hp'
          · exact Or.inr hfalse
          · exact hpre p hp'

/-- C1: the verdict engine scans the retrieved candidates in rank order,
skips those below the `3.0` floor, stops at the first decisive candidate,
returning its label with one piece of evidence built from that line, and
returns INSUFFICIENT with no evidence when no at-or-above-floor candidate is
decisive; in particular a decisive NOT_SUPPORTED candidate at rank 1 decides
the result whatever rank 2 would have classified. -/
theorem c1_first_decisive_wins :
    (∀ (r : Retriever) (claim question : String),
      ((verifyClaim r claim question).1.label = "INSUFFICIENT" ∧
        (verifyClaim r claim question).1.evidence = [] ∧
        ∀ p ∈ r.search (question ++ " " ++ claim) 10, SUPPORT_THRESHOLD ≤ p.2 →
          isDecisive (check_support claim p.1.content) = false) ∨
      (∃ pre c post, r.search (question ++ " " ++ claim) 10 = pre ++ c :: post ∧
        (∀ p ∈ pre, p.2 < SUPPORT_THRESHOLD ∨
          isDecisive (check_support claim p.1.content) = false) ∧
        SUPPORT_THRESHOLD ≤ c.2 ∧ isDecisive (check_support claim c.1.content) = true ∧
        (verifyClaim r claim question).1.label = check_support claim c.1.content ∧
        (verifyClaim r claim question).1.evidence = [mkEvidence c.1])) ∧
    (∀ (claim : String) (c₁ c₂ : DocumentLine × ℚ) (rest : List (DocumentLine × ℚ)),
      SUPPORT_THRESHOLD ≤ c₁.2 → check_support claim c₁.1.content = "NOT_SUPPORTED" →
      scanCandidates claim (c₁ :: c₂ :: rest) = ("NOT_SUPPORTED", [mkEvidence c₁.1])) := by
  constructor
  · intro r claim question
    have hl : (verifyClaim r claim question).1.label =
        (scanCandidates claim (r.search (question ++ " " ++ claim) 10)).1 := rfl
    have he : (verifyClaim r claim question).1.evidence =
        (scanCandidates claim (r.search (question ++ " " ++ claim) 10)).2 := rfl
    rcases scanCandidates_spec claim (r.search (question ++ " " ++ claim) 10) with
      ⟨h1, h2⟩ | ⟨pre, c, post, heq, hpre, hc1, hc2, hres⟩
    · left
      exact ⟨by rw [hl, h1], by rw [he, h1], h2⟩
    · right
      exact ⟨pre, c, post, heq, hpre, hc1, hc2, by rw [hl, hres], by rw [he, hres]⟩
  · intro claim c₁ c₂ rest h1 h2
    obtain ⟨line, score⟩ := c₁
    have hs : ¬ score < SUPPORT_THRESHOLD := not_lt.mpr h1
    by_cases h' : check_support claim line.content = "SUPPORTED"
    · exact absurd (h'.symm.trans h2) (by decide)
    · simp [scanCandidates, hs, h', h2]

theorem c1_witness :
    SUPPORT_THRESHOLD ≤ (5 : ℚ) ∧
    check_support "Appeals must be filed within 7 days" "Appeals must be filed within 3 days"
      = "NOT_SUPPORTED" ∧
    check_support "Appeals must be filed within 7 days" "Appeals must be filed within 7 days"
      = "SUPPORTED" ∧
    scanCandidates "Appeals must be filed within 7 days"
      [(⟨"doc01", "L001", "Appeals must be filed within 3 days"⟩, 5),
       (⟨"doc01", "L002", "Appeals must be filed within 7 days"⟩, 4)] =
      ("NOT_SUPPORTED", [mkEvidence ⟨"doc01", "L001", "Appeals must be filed within 3 days"⟩]) :=
  ⟨by decide, by decide, by decide,
   c1_first_decisive_wins.2 "Appeals must be filed within 7 days"
     (⟨"doc01", "L001", "Appeals must be filed within 3 days"⟩, 5)
     (⟨"doc01", "L002", "Appeals must be filed within 7 days"⟩, 4) [] (by decide) (by decide)⟩

/-- C5: a claim result carries no evidence exactly when its label is
INSUFFICIENT, and exactly one piece of evidence exactly when its label is
SUPPORTED or NOT_SUPPORTED. -/
theorem c5_result_exclusivity (r : Retriever) (claim question : String) :
    ((verifyClaim r claim question).1.evidence.length = 0 ↔
      (verifyClaim r claim question).1.label = "INSUFFICIENT") ∧
    ((verifyClaim r claim question).1.evidence.length = 1 ↔
      ((verifyClaim r claim question).1.label = "SUPPORTED" ∨
        (verifyClaim r claim question).1.label = "NOT_SUPPORTED")) := by
  have hl : (verifyClaim r claim question).1.label =
      (scanCandidates claim (r.search (question ++ " " ++ claim) 10)).1 := rfl
  have he : (verifyClaim r claim question).1.evidence =
      (scanCandidates claim (r.search (question ++ " " ++ claim) 10)).2 := rfl
  rcases scanCandidates_spec claim (r.search (question ++ " " ++ claim) 10) with
    ⟨h1, _⟩ | ⟨pre, c, post, _, _, _, hdec, hres⟩
  · rw [hl, he, h1]
    simp
  · rw [hl, he, hres]
    simp only [isDecisive, Bool.or_eq_true, beq_iff_eq] at hdec
    rcases hdec with h | h <;> rw [h] <;> simp

theorem c5_witness :
    (verifyClaim witnessRetriever "Appeals must be filed within 7 days"
      "When are things due").1.label = "NOT_SUPPORTED" ∧
    (verifyClaim witnessRetriever "Appeals must be filed within 7 days"
      "When are things due").1.evidence.length = 1 ∧
    (((verifyClaim witnessRetriever "Appeals must be filed within 7 days"
        "When are things due").1.evidence.length = 0 ↔
      (verifyClaim witnessRetriever "Appeals must be filed within 7 days"
        "When are things due").1.label = "INSUFFICIENT") ∧
     ((verifyClaim witnessRetriever "Appeals must be filed within 7 days"
        "When are things due").1.evidence.length = 1 ↔
      ((verifyClaim witnessRetriever "Appeals must be filed within 7 days"
        "When are things due").1.label = "SUPPORTED" ∨
       (verifyClaim witnessRetriever "Appeals must be filed within 7 days"
        "When are things due").1.label = "NOT_SUPPORTED"))) :=
  ⟨by decide, by decide,
   c5_result_exclusivity witnessRetriever "Appeals must be filed within 7 days"
     "When are things due"⟩

/-- C6: every retrieved hit becomes a logged candidate with its score rounded
to two decimals, regardless of the floor, while every piece of evidence in
the result comes from a retrieved candidate whose raw score is at or above
the `3.0` floor. -/
theorem c6_floor_and_log (r : Retriever) (claim question : String) :
    (verifyClaim r claim question).2 =
      (r.search (question ++ " " ++ claim) 10).map (fun p =>
        RetrievalCandidate.mk p.1.doc_id (round2 p.2) p.1.location) ∧
    ∀ e ∈ (verifyClaim r claim question).1.evidence,
      ∃ p ∈ r.search (question ++ " " ++ claim) 10,
        SUPPORT_THRESHOLD ≤ p.2 ∧ e = mkEvidence p.1 := by
  refine ⟨rfl, ?_⟩
  have he : (verifyClaim r claim question).1.evidence =
      (scanCandidates claim (r.search (question ++ " " ++ claim) 10)).2 := rfl
  rcases scanCandidates_spec claim (r.search (question ++ " " ++ claim) 10) with
    ⟨h1, _⟩ | ⟨pre, c, post, heq, _, hth, _, hres⟩
  · rw [he, h1]
    simp
  · rw [he, hres]
    intro e hein
    have : e = mkEvidence c.1 := by simpa using hein
    subst this
    exact ⟨c, by rw [heq]; exact List.mem_append_right _ (List.mem_cons_self _ _), hth, rfl⟩

theorem c6_witness :
    ∃ p ∈ witnessRetriever.search
      ("When are things due" ++ " " ++ "Appeals must be filed within 7 days") 10,
      SUPPORT_THRESHOLD ≤ p.2 ∧
      (⟨"doc02", "L001", "Refunds are processed in 14 days"⟩ : Evidence) = mkEvidence p.1 :=
  (c6_floor_and_log witnessRetriever "Appeals must be filed within 7 days"
    "When are things due").2
    ⟨"doc02", "L001", "Refunds are processed in 14 days"⟩ (by decide)

/-- The ranked prefix is sorted by score descending with ties broken by the
original index (the unique outcome of Python's stable descending sort). -/
lemma rankCandidates_pairwise (scores : List ℚ) (topK : Nat) :
    (rankCandidates scores topK).Pairwise
      (fun a b => b.2 < a.2 ∨ (a.2 = b.2 ∧ a.1 < b.1)) := by
  have hsorted : (scores.enum.insertionSort rankLE).Pairwise rankLE :=
    List.sorted_insertionSort rankLE scores.enum
  have hperm : (scores.enum.insertionSort rankLE).Perm scores.enum :=
    List.perm_insertionSort rankLE scores.enum
  have hnodup : ((scores.enum.insertionSort rankLE).map Prod.fst).Nodup := by
    have h1 : (scores.enum.map Prod.fst).Nodup := by
      rw [List.enum_map_fst]
      exact List.nodup_range _
    exact ((hperm.map Prod.fst).nodup_iff).mpr h1
  have hne : (scores.enum.insertionSort rankLE).Pairwise (fun a b => a.1 ≠ b.1) :=
    List.pairwise_map.mp hnodup
  have hstrict : (scores.enum.insertionSort rankLE).Pairwise
      (fun a b => b.2 < a.2 ∨ (a.2 = b.2 ∧ a.1 < b.1)) := by
    refine (hsorted.and hne).imp ?_
    rintro a b ⟨hab, hne'⟩
    rcases hab with h | ⟨h, h'⟩
    · exact Or.inl h
    · exact Or.inr ⟨h, lt_of_le_of_ne h' hne'⟩
  exact List.Pairwise.sublist (List.take_sublist _ _) hstrict

/-- Every ranked entry pairs an index with the score the score list holds at
that index. -/
lemma rankCandidates_mem (scores : List ℚ) (topK : Nat) :
    ∀ p ∈ rankCandidates scores topK, scores[p.1]? = some p.2 := by
  intro p hp
  have h1 : p ∈ scores.enum.insertionSort rankLE := (List.take_sublist _ _).subset hp
  have h2 : p ∈ scores.enum := (List.perm_insertionSort rankLE scores.enum).subset h1
  obtain ⟨i, x⟩ := p
  obtain ⟨hlt, hx⟩ := List.mem_enum h2
  rw [List.getElem?_eq_getElem hlt, hx]

/-- C9: `search` ranks by score descending with ties broken by original
corpus order (the indexed ranking is sorted by the strict lexicographic
order), truncates to `top_k`, and keeps only strictly positive scores, each
result carrying a corpus line and the score assigned to its index. -/
theorem c9_search_properties (r : Retriever) (query : String) (topK : Nat) :
    (rankCandidates (r.getScores (tokenize (toLowerL query.toList))) topK).Pairwise
      (fun a b => b.2 < a.2 ∨ (a.2 = b.2 ∧ a.1 < b.1)) ∧
    (r.search query topK).length ≤ topK ∧
    (r.search query topK).Pairwise (fun a b => b.2 ≤ a.2) ∧
    (∀ p ∈ r.search query topK, 0 < p.2 ∧
      ∃ i : Nat, (r.getScores (tokenize (toLowerL query.toList)))[i]? = some p.2 ∧
        r.lines[i]? = some p.1) := by
  have hpw := rankCandidates_pairwise (r.getScores (tokenize (toLowerL query.toList))) topK
  have hmem := rankCandidates_mem (r.getScores (tokenize (toLowerL query.toList))) topK
  have hsearch : r.search query topK =
      (rankCandidates (r.getScores (tokenize (toLowerL query.toList))) topK).filterMap
        (fun p => if 0 < p.2 then (r.lines[p.1]?).map (fun l => (l, p.2)) else none) := rfl
  refine ⟨hpw, ?_, ?_, ?_⟩
  · rw [hsearch]
    exact le_trans (List.length_filterMap_le _ _) (List.length_take_le _ _)
  · rw [hsearch]
    refine List.pairwise_filterMap.mpr (hpw.imp ?_)
    intro a b hab x hx y hy
    by_cases ha : 0 < a.2
    · by_cases hb : 0 < b.2
      · rw [if_pos ha] at hx
        rw [if_pos hb] at hy
        simp only [Option.mem_def, Option.map_eq_some'] at hx hy
        obtain ⟨la, _, hxa⟩ := hx
        obtain ⟨lb, _, hyb⟩ := hy
        have hx2 : x.2 = a.2 := by rw [← hxa]
        have hy2 : y.2 = b.2 := by rw [← hyb]
        rw [hx2, hy2]
        rcases hab with h | ⟨h, _⟩
        · exact le_of_lt h
        · exact le_of_eq h.symm
      · rw [if_neg hb] at hy
        simp at hy
    · rw [if_neg ha] at hx
      simp at hx
  · rw [hsearch]
    intro p hp
    obtain ⟨a, ha, hfa⟩ := List.mem_filterMap.mp hp
    by_cases hpos : 0 < a.2
    · rw [if_pos hpos] at hfa
      obtain ⟨l, hl, hx⟩ := Option.map_eq_some'.mp hfa
      subst hx
      exact ⟨hpos, a.1, hmem a ha, hl⟩
    · rw [if_neg hpos] at hfa
      exact absurd hfa (by simp)

theorem c9_witness :
    (witnessRetriever.search
      ("When are things due" ++ " " ++ "Appeals must be filed within 7 days") 10).length ≤ 10 ∧
    ((0 : ℚ) < 11 ∧ ∃ i : Nat,
      (witnessRetriever.getScores (tokenize (toLowerL
        ("When are things due" ++ " " ++ "Appeals must be filed within 7 days").toList)))[i]?
        = some 11 ∧
      witnessRetriever.lines[i]? =
        some ⟨"doc02", "L001", "Refunds are processed in 14 days"⟩) :=
  ⟨(c9_search_properties witnessRetriever
      ("When are things due" ++ " " ++ "Appeals must be filed within 7 days") 10).2.1,
   (c9_search_properties witnessRetriever
      ("When are things due" ++ " " ++ "Appeals must be filed within 7 days") 10).2.2.2
     (⟨"doc02", "L001", "Refunds are processed in 14 days"⟩, 11) (by decide)⟩

/-- The seen-set dedup loop on a score-descending list keeps, for every key,
the first occurrence — hence one with the maximal score for that key — and
produces pairwise-distinct keys. -/
lemma dedupByKey_spec :
    ∀ (l : List RetrievalCandidate) (seen : List (String × String)),
      l.Pairwise (fun a b => b.score ≤ a.score) →
      ((∀ c ∈ dedupByKey l seen, c ∈ l ∧ candidateKey c ∉ seen ∧
         ∀ d ∈ l, candidateKey d = candidateKey c → d.score ≤ c.score) ∧
       (dedupByKey l seen).Pairwise (fun a b => candidateKey a ≠ candidateKey b)) := by
  intro l
  induction l with
  | nil =>
    intro seen _
    exact ⟨by simp [dedupByKey], by simp [dedupByKey]⟩
  | cons x rest ih =>
    intro seen hsort
    obtain ⟨hx, hrest⟩ := List.pairwise_cons.mp hsort
    by_cases hmem : candidateKey x ∈ seen
    · have hstep : dedupByKey (x :: rest) seen = dedupByKey rest seen := by
        simp [dedupByKey, hmem]
      obtain ⟨ih1, ih2⟩ := ih seen hrest
      rw [hstep]
      refine ⟨?_, ih2⟩
      intro c hc
      obtain ⟨hc1, hc2, hc3⟩ := ih1 c hc
      refine ⟨List.mem_cons_of_mem _ hc1, hc2, ?_⟩
      intro d hd hkey
      rcases List.mem_cons.mp hd with rfl | hd'
      · exact absurd (hkey ▸ hmem) hc2
      · exact hc3 d hd' hkey
    · have hstep : dedupByKey (x :: rest) seen =
          x :: dedupByKey rest (candidateKey x :: seen) := by
        simp [dedupByKey, hmem]
      obtain ⟨ih1, ih2⟩ := ih (candidateKey x :: seen) hrest
      rw [hstep]
      constructor
      · intro c hc
        rcases List.mem_cons.mp hc with rfl | hc'
        · refine ⟨List.mem_cons_self _ _, hmem, ?_⟩
          intro d hd _
          rcases List.mem_cons.mp hd with rfl | hd'
          · exact le_refl _
          · exact hx d hd'
        · obtain ⟨hc1, hc2, hc3⟩ := ih1 c hc'
          have hknotx : candidateKey c ≠ candidateKey x := by
            intro h
            exact hc2 (h ▸ List.mem_cons_self _ _)
          refine ⟨List.mem_cons_of_mem _ hc1,
            fun h => hc2 (List.mem_cons_of_mem _ h), ?_⟩
          intro d hd hkey
          rcases List.mem_cons.mp hd with rfl | hd'
          · exact absurd hkey.symm hknotx
          · exact hc3 d hd' hkey
      · refine List.pairwise_cons.mpr ⟨?_, ih2⟩
        intro b hb
        obtain ⟨_, hb2, _⟩ := ih1 b hb
        intro h
        exact hb2 (h ▸ List.mem_cons_self _ _)

/-- C7: the pooled candidates of a pack are deduplicated by
`(doc_id, location)`, each surviving entry carrying the maximal score seen
for its key across the whole pool; the log is truncated to 10 entries and
`top_k` is recorded as 10. -/
theorem c7_dedup_by_identity (r : Retriever) (qid question : String) (claims : List String) :
    (generatePack r qid question claims).top_k = 10 ∧
    (generatePack r qid question claims).candidates.length ≤ 10 ∧
    (generatePack r qid question claims).candidates.Pairwise
      (fun a b => candidateKey a ≠ candidateKey b) ∧
    ∀ c ∈ (generatePack r qid question claims).candidates,
      c ∈ (claims.map fun cl => (verifyClaim r cl question).2).flatten ∧
      ∀ d ∈ (claims.map fun cl => (verifyClaim r cl question).2).flatten,
        candidateKey d = candidateKey c → d.score ≤ c.score := by
  have hcand : (generatePack r qid question claims).candidates =
      (dedupByKey (((claims.map fun cl =>
        (verifyClaim r cl question).2).flatten).insertionSort scoreLE) []).take 10 := rfl
  have hsorted : (((claims.map fun cl =>
      (verifyClaim r cl question).2).flatten).insertionSort scoreLE).Pairwise
      (fun a b => b.score ≤ a.score) := by
    have h := List.sorted_insertionSort scoreLE
      ((claims.map fun cl => (verifyClaim r cl question).2).flatten)
    exact h.imp (fun hab => hab)
  obtain ⟨hspec1, hspec2⟩ := dedupByKey_spec _ [] hsorted
  have hperm := List.perm_insertionSort scoreLE
    ((claims.map fun cl => (verifyClaim r cl question).2).flatten)
  refine ⟨rfl, ?_, ?_, ?_⟩
  · rw [hcand]
    exact List.length_take_le _ _
  · rw [hcand]
    exact List.Pairwise.sublist (List.take_sublist _ _) hspec2
  · rw [hcand]
    intro c hc
    have hc' := (List.take_sublist _ _).subset hc
    obtain ⟨h1, _, h3⟩ := hspec1 c hc'
    refine ⟨hperm.subset h1, ?_⟩
    intro d hd hkey
    exact h3 d (hperm.symm.subset hd) hkey

theorem c7_witness :
    (generatePack witnessRetriever "q1" "When are things due"
      ["Appeals must be filed within 7 days", "Refunds are processed in 14 days"]).candidates =
      [⟨"doc02", 11, "L001"⟩, ⟨"doc01", 5, "L001"⟩, ⟨"doc01", 4, "L002"⟩] ∧
    (generatePack witnessRetriever "q1" "When are things due"
      ["Appeals must be filed within 7 days", "Refunds are processed in 14 days"]).top_k = 10 ∧
    (⟨"doc02", 11, "L001"⟩ : RetrievalCandidate) ∈
      ((["Appeals must be filed within 7 days", "Refunds are processed in 14 days"].map
        fun cl => (verifyClaim witnessRetriever cl "When are things due").2).flatten) :=
  ⟨by decide,
   (c7_dedup_by_identity witnessRetriever "q1" "When are things due"
     ["Appeals must be filed within 7 days", "Refunds are processed in 14 days"]).1,
   ((c7_dedup_by_identity witnessRetriever "q1" "When are things due"
     ["Appeals must be filed within 7 days", "Refunds are processed in 14 days"]).2.2.2
     ⟨"doc02", 11, "L001"⟩ (by decide)).1⟩

lemma verifyClaim_claim (r : Retriever) (claim question : String) :
    (verifyClaim r claim question).1.claim = claim := rfl

/-- C8: the pack answer joins the literal texts of exactly the SUPPORTED
claims with `"; "` in original claim order, and is the fixed sentinel when no
claim is SUPPORTED (in particular for an empty claim list). -/
theorem c8_answer_construction (r : Retriever) (qid question : String) (claims : List String) :
    (generatePack r qid question claims).answer =
      if claims.all (fun c => !((verifyClaim r c question).1.label == "SUPPORTED")) then
        INSUFFICIENT_ANSWER
      else
        String.intercalate "; "
          (claims.filter fun c => (verifyClaim r c question).1.label == "SUPPORTED") := by
  have hans : (generatePack r qid question claims).answer =
      (if ((claims.map fun c => (verifyClaim r c question).1).filter
            (fun cr => cr.label == "SUPPORTED")).isEmpty then INSUFFICIENT_ANSWER
       else String.intercalate "; "
         (((claims.map fun c => (verifyClaim r c question).1).filter
            (fun cr => cr.label == "SUPPORTED")).map ClaimResult.claim)) := rfl
  rw [hans, List.filter_map]
  simp only [List.map_map, Function.comp_def]
  have hclaims : (claims.filter
      (fun c => (verifyClaim r c question).1.label == "SUPPORTED")).map
      (fun c => (verifyClaim r c question).1.claim) =
      claims.filter (fun c => (verifyClaim r c question).1.label == "SUPPORTED") := by
    simp [verifyClaim_claim]
  rw [hclaims]
  by_cases hall : claims.all (fun c => !((verifyClaim r c question).1.label == "SUPPORTED"))
  · have hnil : claims.filter
        (fun c => (verifyClaim r c question).1.label == "SUPPORTED") = [] := by
      rw [List.filter_eq_nil_iff]
      intro a ha
      have := List.all_eq_true.mp hall a ha
      simpa using this
    simp [hall, hnil]
  · have hne : claims.filter
        (fun c => (verifyClaim r c question).1.label == "SUPPORTED") ≠ [] := by
      intro h
      apply hall
      rw [List.all_eq_true]
      intro a ha
      have := List.filter_eq_nil_iff.mp h a ha
      simpa using this
    simp [hall, hne, List.isEmpty_iff, List.map_eq_nil_iff]

theorem c8_witness :
    (generatePack witnessRetriever "q1" "When are things due"
      ["Appeals must be filed within 7 days", "Refunds are processed in 14 days"]).answer =
      "Refunds are processed in 14 days" ∧
    (generatePack witnessRetriever "q2" "When are things due" []).answer =
      "Insufficient evidence to provide a definitive answer." ∧
    (generatePack witnessRetriever "q1" "When are things due"
      ["Appeals must be filed within 7 days", "Refunds are processed in 14 days"]).answer =
      (if ["Appeals must be filed within 7 days", "Refunds are processed in 14 days"].all
          (fun c => !((verifyClaim witnessRetriever c "When are things due").1.label
            == "SUPPORTED")) then
        INSUFFICIENT_ANSWER
      else
        String.intercalate "; "
          (["Appeals must be filed within 7 days", "Refunds are processed in 14 days"].filter
            fun c => (verifyClaim witnessRetriever c "When are things due").1.label
              == "SUPPORTED")) :=
  ⟨by decide, by decide,
   c8_answer_construction witnessRetriever "q1" "When are things due"
     ["Appeals must be filed within 7 days", "Refunds are processed in 14 days"]⟩

theorem c10_witness :
    negated "Innovation is valued" = true ∧
    containsWordBounded (toLowerL "Innovation is valued".toList) "no".toList = false :=
  ⟨c10_substring_negation.2.1,
   c10_substring_negation.2.2.1 "no".toList (by decide)⟩

end VPack
